import Mathlib

/-!
Shallow embedding of the videoTranscode repository: the HLS transcode
pipeline (`src/transcoder/index.js`, second revision, the one with the
HLS/master-playlist logic), the SQS event dispatcher
(`src/consumer/src/index.ts`) and the signed-URL service
(`src/generate-url/src/services/video.service.ts`).

Strings are modelled by Lean `String` (a structure over `List Char`),
JavaScript's `split`, `path.parse(..).name`, `parseInt` and regular
expressions by explicit executable functions on the character list.
External effects (S3, the ffmpeg encoder, SQS, ECS, the CloudFront
signer) are modelled by oracle environments, and the observable effect
traces (encoder invocations, uploads, SQS commands, signer calls,
files left on disk) are returned explicitly.
-/

namespace VT

deriving instance DecidableEq for Except

/-- Character-list form of a string, for functions that recurse on chars. -/
abbrev Chars := List Char

/-- JavaScript `s.split(sep)` on a character list.  Always returns at
least one part; a separator at the boundary yields an empty part, as in JS. -/
def splitCh (sep : Char) : Chars → List Chars
  | [] => [[]]
  | c :: cs =>
    let r := splitCh sep cs
    if c = sep then [] :: r
    else
      match r with
      | [] => [[c]]
      | h :: t => (c :: h) :: t

/-- JavaScript `key.split(sep)` on a `String`. -/
def jsSplit (s : String) (sep : Char) : List String :=
  (splitCh sep s.data).map String.mk

/-- Scan a reversed character list for the first `'.'`; returns
(reversed extension, reversed stem) when a dot is found. -/
def breakAtDot : Chars → Option (Chars × Chars)
  | [] => none
  | c :: cs =>
    if c = '.' then some ([], cs)
    else
      match breakAtDot cs with
      | none => none
      | some (a, b) => some (c :: a, b)

/-- Node `path.parse(base).name`: the base name with its final extension
stripped, except that a lone leading dot (hidden file) is kept whole. -/
def pathParseName (d : Chars) : Chars :=
  match breakAtDot d.reverse with
  | none => d
  | some (_extRev, stemRev) => if stemRev = [] then d else stemRev.reverse

/-- Node `path.basename`: the part after the last `/`. -/
def basename (s : String) : String :=
  ((splitCh '/' s.data).getLastD []) |> String.mk

/-- JavaScript `parseInt` on the strings it is applied to here
(a run of leading decimal digits, e.g. `"5000k"` ↦ 5000). -/
def jsParseInt (s : String) : Nat :=
  (s.data.takeWhile Char.isDigit).foldl (fun n c => n * 10 + (c.toNat - '0'.toNat)) 0

/-- Case folding of one character, as the `/i` regex flag sees ASCII. -/
def lowerCh (c : Char) : Char := c.toLower

/-- Case folding of a character list. -/
def lowerL (l : Chars) : Chars := l.map lowerCh

/-- Case folding of a string. -/
def lowerS (s : String) : String := String.mk (lowerL s.data)

section Retry

/-!
Retry/Backoff Executor.

`withRetry` embeds the transcoder's executor (`src/transcoder/index.js`
lines 252-267): attempts are 1-indexed, the loop `break`s on the last
attempt and then re-throws `lastError` (an absent `lastError`, possible
only when `maxRetries = 0`, is modelled by `Except.error none`).  The
delay after attempt `k` is `min (RETRY_DELAY * 2 ^ (k-1)) 10000`.

`retryWithBackoff` embeds the consumer's executor
(`src/consumer/src/index.ts` lines 60-75): attempts are 0-indexed, the
last attempt's error is re-thrown from inside the loop, the delay after
attempt `i` is `min (1000 * 2 ^ i) 5000`, and falling out of the loop
(possible only when `retries = 0`) throws the generic
`Error('Retry failed')`, modelled by `Except.error none`.

Each returns (outcome, number of attempts executed, list of delays slept).
-/

/-- One result of a retried execution: outcome (with `none` standing for
the executor's own generic failure rather than an operation error),
attempts executed, and the backoff delays slept in order. -/
structure RetryOut (E α : Type) where
  outcome : Except (Option E) α
  attempts : Nat
  delays : List Nat
deriving Repr, DecidableEq

/-- Loop body of the transcoder's `withRetry`; `fuel` is the number of
attempts still allowed, `attempt` the 1-indexed number of the next one. -/
def wrGo {E α : Type} (op : Nat → Except E α) (attempt : Nat) : Nat → RetryOut E α
  | 0 => ⟨.error none, 0, []⟩
  | fuel + 1 =>
    match op attempt with
    | .ok a => ⟨.ok a, 1, []⟩
    | .error e =>
      if fuel = 0 then ⟨.error (some e), 1, []⟩
      else
        let d := min (1000 * 2 ^ (attempt - 1)) 10000
        let r := wrGo op (attempt + 1) fuel
        ⟨r.outcome, 1 + r.attempts, d :: r.delays⟩

/-- The transcoder's `withRetry(operation, maxRetries)` with
`CONFIG.RETRY_DELAY = 1000` and delay ceiling `10000`. -/
def withRetry {E α : Type} (op : Nat → Except E α) (maxRetries : Nat) : RetryOut E α :=
  wrGo op 1 maxRetries

/-- Loop body of the consumer's `retryWithBackoff`; `i` is the 0-indexed
attempt counter of the `for` loop. -/
def rwbGo {E α : Type} (op : Nat → Except E α) (i : Nat) : Nat → RetryOut E α
  | 0 => ⟨.error none, 0, []⟩
  | fuel + 1 =>
    match op i with
    | .ok a => ⟨.ok a, 1, []⟩
    | .error e =>
      if fuel = 0 then ⟨.error (some e), 1, []⟩
      else
        let d := min (1000 * 2 ^ i) 5000
        let r := rwbGo op (i + 1) fuel
        ⟨r.outcome, 1 + r.attempts, d :: r.delays⟩

/-- The consumer's `retryWithBackoff(operation, retries)` with base
delay `1000` and ceiling `5000`. -/
def retryWithBackoff {E α : Type} (op : Nat → Except E α) (retries : Nat) : RetryOut E α :=
  rwbGo op 0 retries

end Retry

section Transcoder

/-!
Transcode Pipeline (`src/transcoder/index.js`, HLS revision).
-/

/-- One entry of `RESOLUTIONS`. -/
structure Resolution where
  name : String
  width : Nat
  height : Nat
  bitrate : String
deriving Repr, DecidableEq

/-- The fixed, ordered variant configuration `RESOLUTIONS`. -/
def RESOLUTIONS : List Resolution :=
  [ ⟨"1080p", 1920, 1080, "5000k"⟩,
    ⟨"720p", 1280, 720, "2800k"⟩,
    ⟨"480p", 854, 480, "1400k"⟩,
    ⟨"360p", 640, 360, "800k"⟩ ]

/-- Fallback used only to totalise JS index accesses that cannot miss. -/
def defaultResolution : Resolution := ⟨"", 0, 0, ""⟩

/-- The result of `generateS3Paths`: the parsed course id and base file
name.  JS indexing past the end of `split`'s result yields `undefined`,
which a template literal renders as the string `"undefined"`. -/
structure S3Paths where
  courseId : String
  filename : String
deriving Repr, DecidableEq

/-- Source `generateS3Paths(originalKey)`: `keyParts[1]` and
`path.parse(keyParts[keyParts.length - 1]).name`. -/
def generateS3Paths (originalKey : String) : S3Paths :=
  let keyParts := splitCh '/' originalKey.data
  { courseId := String.mk (keyParts.getD 1 "undefined".data)
    filename := String.mk (pathParseName (keyParts.getLastD "undefined".data)) }

/-- Source `getHLSBasePath()` of the paths object. -/
def getHLSBasePath (p : S3Paths) : String :=
  p.courseId ++ "/hls/" ++ p.filename

/-- Source `getMasterPlaylistKey()` of the paths object. -/
def getMasterPlaylistKey (p : S3Paths) : String :=
  p.courseId ++ "/hls/" ++ p.filename ++ "/master.m3u8"

/-- Source `getVariantPlaylistKey(resolution)` of the paths object. -/
def getVariantPlaylistKey (p : S3Paths) (resolution : String) : String :=
  p.courseId ++ "/hls/" ++ p.filename ++ "/" ++ resolution ++ "/playlist.m3u8"

/-- Source `checkFileExists(bucket, key)` against a store modelled as the list
of keys present in the bucket (a HEAD miss is the well-defined
`NotFound` signal; other probe failures are outside the model). -/
def checkFileExists (store : List String) (key : String) : Bool :=
  store.contains key

/-- One entry passed to `generateMasterPlaylist` by `processVideo`:
`resolution` is the string `` `${res.width}x${res.height}` `` and
`bandwidth` is `parseInt(res.bitrate) * 1000`. -/
structure MasterVariant where
  resolution : String
  bandwidth : Nat
deriving Repr, DecidableEq

/-- Source `generateMasterPlaylist(variants)`: the exact text built by the
source, one `#EXT-X-STREAM-INF` header plus one URI line per variant. -/
def generateMasterPlaylist (variants : List MasterVariant) : String :=
  variants.foldl
    (fun playlist v =>
      playlist
        ++ "#EXT-X-STREAM-INF:BANDWIDTH=" ++ toString v.bandwidth
        ++ ",RESOLUTION=" ++ v.resolution
        ++ ",CODECS=\"avc1.4d401f,mp4a.40.2\"\n"
        ++ v.resolution ++ "/playlist.m3u8\n")
    "#EXTM3U\n#EXT-X-VERSION:3\n#EXT-X-INDEPENDENT-SEGMENTS\n\n"

/-- The argument `processVideo` maps `RESOLUTIONS` to before calling
`generateMasterPlaylist`. -/
def masterVariants : List MasterVariant :=
  RESOLUTIONS.map (fun res =>
    { resolution := toString res.width ++ "x" ++ toString res.height
      bandwidth := jsParseInt res.bitrate * 1000 })

/-- The master playlist text `processVideo` writes and uploads
(deterministic, since `RESOLUTIONS` is fixed). -/
def masterContent : String := generateMasterPlaylist masterVariants

/-- Outcome of one `GetObject` attempt: a transport error (no file is
written), or a body of the given size streamed to disk. -/
inductive GetOutcome where
  | err (msg : String)
  | body (size : Nat)

/-- Oracle environment for one pipeline run: the keys present in the
production bucket, the outcome of each 1-indexed download attempt,
whether the encoder succeeds for a given resolution name, and how many
segments the encoder emits for it. -/
structure TEnv where
  prodStore : List String
  getObject : Nat → GetOutcome
  transcodeOk : String → Bool
  segCount : String → Nat

/-- Files written by the job outside the scoped workspace (the streamed
download target `original-...` lives in the process working directory). -/
abbrev CwdFiles := List String

/-- Source `fs.writeFile`-style idempotent creation of a path. -/
def writeFileAt (cwd : CwdFiles) (fp : String) : CwdFiles :=
  if cwd.contains fp then cwd else cwd ++ [fp]

/-- One attempt of the body wrapped in `withRetry` inside
`downloadFromS3`: stream the object to `original-{basename}` (the file
is created even when it turns out empty), then reject empty downloads. -/
def downloadAttempt (env : TEnv) (key : String) (k : Nat) (cwd : CwdFiles) :
    Except String String × CwdFiles :=
  match env.getObject k with
  | .err m => (.error m, cwd)
  | .body size =>
    let filePath := "original-" ++ basename key
    let cwd' := writeFileAt cwd filePath
    if size = 0 then (.error "Downloaded file is empty", cwd')
    else (.ok filePath, cwd')

/-- State-threaded run of `withRetry`'s control flow, used by
`downloadFromS3` (same loop as `wrGo`, with the written-files state
carried through; delays are not tracked here). -/
def wrStGo (env : TEnv) (key : String) (attempt : Nat) (cwd : CwdFiles) :
    Nat → Except String String × CwdFiles
  | 0 => (.error "no attempt executed", cwd)
  | fuel + 1 =>
    match downloadAttempt env key attempt cwd with
    | (.ok a, cwd') => (.ok a, cwd')
    | (.error e, cwd') =>
      if fuel = 0 then (.error e, cwd')
      else wrStGo env key (attempt + 1) cwd' fuel

/-- Source `downloadFromS3(bucket, key)`: the retried streaming download
(`CONFIG.MAX_RETRIES = 3`). -/
def downloadFromS3 (env : TEnv) (key : String) (cwd : CwdFiles) :
    Except String String × CwdFiles :=
  wrStGo env key 1 cwd 3

/-- Zero-padded segment index as in `segment_%03d.ts`. -/
def pad3 (i : Nat) : String :=
  if i < 10 then "00" ++ toString i
  else if i < 100 then "0" ++ toString i
  else toString i

/-- The files ffmpeg leaves in the variant's work directory: the
variant playlist plus its numbered segments. -/
def variantLocalFiles (env : TEnv) (r : Resolution) : List String :=
  "playlist.m3u8" :: (List.range (env.segCount r.name)).map (fun i => "segment_" ++ pad3 i ++ ".ts")

/-- Source `transcodeToHLS(inputPath, outputDir, resolution)`: the encoder as a
black box — succeeds producing the variant's files or fails. -/
def transcodeToHLS (env : TEnv) (r : Resolution) : Except String (List String) :=
  if env.transcodeOk r.name then .ok (variantLocalFiles env r)
  else .error ("Transcoding failed: " ++ r.name)

/-- Source `uploadHLSFiles(outputDir, resolution, bucket, s3BasePath)`: every
file of the variant directory goes to `{s3BasePath}/{name}/{file}` with
content type keyed on the `.m3u8` suffix.  The bounded-concurrency
chunking of the source preserves this order. -/
def uploadHLSFiles (s3BasePath : String) (r : Resolution) (files : List String) :
    List (String × String) :=
  files.map (fun file =>
    (s3BasePath ++ "/" ++ r.name ++ "/" ++ file,
     if "m3u8".data.isSuffixOf file.data then "application/x-mpegURL" else "video/MP2T"))

/-- Observable outcome of processing one remaining (non-canary) variant
inside the `Promise.all` fan-out. -/
structure VariantOut where
  err : Option String
  encoderCalls : List String
  uploads : List (String × String)
deriving Repr, DecidableEq

/-- One remaining variant's task: idempotency probe, then transcode and
upload (`processVideo`, fan-out body). -/
def variantStep (env : TEnv) (p : S3Paths) (r : Resolution) : VariantOut :=
  if checkFileExists env.prodStore (getVariantPlaylistKey p r.name) then
    ⟨none, [], []⟩
  else
    match transcodeToHLS env r with
    | .ok files => ⟨none, [r.name], uploadHLSFiles (getHLSBasePath p) r files⟩
    | .error e => ⟨some e, [r.name], []⟩

/-- First error among the settled variant tasks (the `Promise.all`
rejection; every task has already run its effects). -/
def firstErr : List VariantOut → Option String
  | [] => none
  | o :: rest =>
    match o.err with
    | some e => some e
    | none => firstErr rest

/-- Final observable state of one `processVideo(sourceKey)` run. -/
structure PVOut where
  result : Except String Bool
  encoderCalls : List String
  uploads : List (String × String)
  cwdFiles : CwdFiles
  workDirRemoved : Bool
deriving Repr, DecidableEq

/-- Source `processVideo(sourceKey)`: download (retried, size-checked), canary
transcode of the last configured resolution, concurrent fan-out over
`RESOLUTIONS.slice(0, -1)` with idempotency skip, master playlist
generation and upload, and the `finally` removal of the scoped work
directory on every exit path. -/
def processVideo (env : TEnv) (sourceKey : String) : PVOut :=
  let p := generateS3Paths sourceKey
  match downloadFromS3 env sourceKey [] with
  | (.error e, cwd) =>
    { result := .error e, encoderCalls := [], uploads := [],
      cwdFiles := cwd, workDirRemoved := true }
  | (.ok _originalVideoPath, cwd) =>
    let testResolution := RESOLUTIONS.getLastD defaultResolution
    match transcodeToHLS env testResolution with
    | .error e =>
      { result := .error ("Test transcoding failed: " ++ e),
        encoderCalls := [testResolution.name], uploads := [],
        cwdFiles := cwd, workDirRemoved := true }
    | .ok _canaryFiles =>
      let remainingResolutions := RESOLUTIONS.dropLast
      let outs := remainingResolutions.map (variantStep env p)
      let calls := testResolution.name :: outs.flatMap (·.encoderCalls)
      let vUploads := outs.flatMap (·.uploads)
      match firstErr outs with
      | some e =>
        { result := .error e, encoderCalls := calls, uploads := vUploads,
          cwdFiles := cwd, workDirRemoved := true }
      | none =>
        { result := .ok true, encoderCalls := calls,
          uploads := vUploads ++ [(getMasterPlaylistKey p, "application/x-mpegURL")],
          cwdFiles := cwd, workDirRemoved := true }

end Transcoder

section Consumer

/-!
Event Dispatcher (`src/consumer/src/index.ts`).
-/

/-- Source `[\w-]`: the characters the key pattern allows in the course id and
file name segments. -/
def isWordChar (c : Char) : Bool :=
  c.isAlphanum || c = '_' || c = '-'

/-- The lowercased three-letter extensions accepted by the key pattern. -/
def videoExts : List Chars := ["mp4".data, "mov".data, "avi".data]

/-- Check of the final path segment against `[\w-]+\.(mp4|mov|avi)` with
the `/i` flag: scanning from the end, three extension characters, a dot,
then a non-empty run of word characters (word characters exclude `.` and
`/`, so the segment has exactly one dot). -/
def validLastSeg (d : Chars) : Bool :=
  match d.reverse with
  | e1 :: e2 :: e3 :: c4 :: stemRev =>
    decide (c4 = '.') && decide (stemRev ≠ []) && stemRev.all isWordChar
      && videoExts.contains (lowerL [e3, e2, e1])
  | _ => false

/-- Source `validateS3Key(key)`: the anchored regex
`/^courses\/[\w-]+\/videos\/[\w-]+\.(mp4|mov|avi)$/i`, embedded as a
structural check on the slash-separated segments (the character classes
exclude `/`, so a match is exactly: four segments, case variants of the
two literals, a non-empty word-character id, and a valid last segment). -/
def validateS3Key (key : String) : Bool :=
  match splitCh '/' key.data with
  | [a, b, c, d] =>
    decide (lowerL a = "courses".data) && decide (b ≠ []) && b.all isWordChar
      && decide (lowerL c = "videos".data) && validLastSeg d
  | _ => false

/-- One record of an S3 notification: `{s3: {bucket: {name}, object: {key}}}`. -/
structure S3Record where
  bucket : String
  key : String
deriving Repr, DecidableEq

/-- The parsed shape of a message body.  `serviceEvent ev` is an object
with `Service` and `Event` fields (`ev` the `Event` value) and no
`Records`; `s3Event` carries the records list; `malformed` is a body
`JSON.parse` rejects. -/
inductive MsgBody where
  | malformed
  | serviceEvent (ev : String)
  | s3Event (records : List S3Record)
deriving Repr, DecidableEq

/-- A queue message; `body = none` models an absent/empty `Body`. -/
structure SqsMsg where
  messageId : String
  body : Option MsgBody
  receiptHandle : String
deriving Repr, DecidableEq

/-- Oracle environment for the dispatcher: whether the `RunTask` call
for a record succeeds on a given 0-indexed attempt. -/
structure CEnv where
  launchAttempt : S3Record → Nat → Bool

/-- Source `launchEcsTask` as one attempt for `retryWithBackoff`. -/
def launchEcsTask (env : CEnv) (rec : S3Record) (i : Nat) : Except String Unit :=
  if env.launchAttempt rec i then .ok () else .error "ECS launch failed"

/-- The dispatch of one record, retried with `MAX_RETRIES = 3`. -/
def launchWithRetry (env : CEnv) (rec : S3Record) : RetryOut String Unit :=
  retryWithBackoff (launchEcsTask env rec) 3

/-- Source `validateAndParseEvent(body)`: parse, throw on
`{Service, Event: "s3:TestEvent"}`, otherwise return the event — whose
`Records` field may be absent (`none`). -/
def validateAndParseEvent : MsgBody → Except String (Option (List S3Record))
  | .malformed => .error "JSON parse failed"
  | .serviceEvent ev =>
    if ev = "s3:TestEvent" then .error "Test event received"
    else .ok none
  | .s3Event records => .ok (some records)

/-- The body of `processMessage`'s record loop for one record: skip an
invalid key with no error and no ECS launch, otherwise launch (retried);
a launch that exhausts its retries throws its last error.  The second
component lists the records for which an ECS task launch was requested. -/
def recordStep (env : CEnv) (rec : S3Record) : Except String Unit × List S3Record :=
  if validateS3Key rec.key then
    (match (launchWithRetry env rec).outcome with
     | .ok _ => .ok ()
     | .error (some e) => .error e
     | .error none => .error "Retry failed",
     [rec])
  else (.ok (), [])

/-- The loop `for (const record of event.Records)`: sequential, aborting
at the first thrown error; launch requests are accumulated. -/
def recordsLoop (env : CEnv) : List S3Record → Except String Unit × List S3Record
  | [] => (.ok (), [])
  | rec :: rest =>
    match recordStep env rec with
    | (.ok _, ls) =>
      let r := recordsLoop env rest
      (r.1, ls ++ r.2)
    | (.error e, ls) => (.error e, ls)

/-- Terminal state of one message, as the spec's per-message state
machine names them. -/
inductive MsgOutcome where
  | acknowledged
  | visibilityExtended
deriving Repr, DecidableEq

/-- The `try` part of `processMessage`: empty-body check, parse, loop
over `Records` (iterating an absent `Records` throws a `TypeError`). -/
def processMessageTry (env : CEnv) (m : SqsMsg) : Except String Unit :=
  match m.body with
  | none => .error "Empty message body"
  | some b =>
    match validateAndParseEvent b with
    | .error e => .error e
    | .ok none => .error "event.Records is not iterable"
    | .ok (some records) => (recordsLoop env records).1

/-- Source `processMessage(message)`: on success delete the message; on any
thrown error send `ChangeMessageVisibility` (15 min) and re-throw.
Returns the terminal queue state and what propagates to the caller. -/
def processMessage (env : CEnv) (m : SqsMsg) : MsgOutcome × Except String Unit :=
  match processMessageTry env m with
  | .ok _ => (.acknowledged, .ok ())
  | .error e => (.visibilityExtended, .error e)

/-- The batch step of `init`:
`Promise.all(Messages.map(m => processMessage(m).catch(log)))` — each
message is handled independently and a rejection is absorbed by its own
`catch`, so the batch itself never throws. -/
def processBatch (env : CEnv) (msgs : List SqsMsg) : List MsgOutcome :=
  msgs.map (fun m => (processMessage env m).1)

end Consumer

section UrlService

/-!
URL Signing Service (`src/generate-url/src/services/video.service.ts`).
-/

/-- Source `isValidKey(key)`: `Boolean(key && key.match(/^[a-zA-Z0-9-_/]+$/))` —
non-empty, every character alphanumeric or `-`, `_`, `/`. -/
def isValidKey (key : String) : Bool :=
  decide (key.data ≠ []) && key.data.all (fun c => c.isAlphanum || c = '-' || c = '_' || c = '/')

/-- The successful payload of `VideoService.generateUrl`:
`expiresAt` is `Date.now() + expiresIn * 1000` in milliseconds
(`getExpiryDate` renders it as an ISO string). -/
structure UrlData where
  url : String
  expiresIn : Nat
  expiresAt : Nat
deriving Repr, DecidableEq

/-- The `VideoResponse` union returned by the service. -/
inductive VideoResponse where
  | success (data : UrlData)
  | failure (error : String)
deriving Repr, DecidableEq

/-- Oracle environment for the service: the CloudFront signing
primitive, applied to a key and an expiry. -/
structure UEnv where
  sign : String → Nat → String

/-- Source `VideoService.generateUrl(params)` at current time `now`
(milliseconds): default the expiry to `DEFAULT_EXPIRES_IN = 3600`,
reject an invalid key before signing, otherwise sign and stamp the
expiry.  The second component is the list of signer invocations. -/
def generateUrl (env : UEnv) (now : Nat) (videoKey : String) (expiresIn? : Option Nat) :
    VideoResponse × List (String × Nat) :=
  let expiresIn := expiresIn?.getD 3600
  if isValidKey videoKey then
    let signedUrl := env.sign videoKey expiresIn
    (.success { url := signedUrl, expiresIn := expiresIn,
                expiresAt := now + expiresIn * 1000 },
     [(videoKey, expiresIn)])
  else
    (.failure "Invalid videoKey format", [])

end UrlService

section SpecSide

/-!
Helper observations on generated manifests, and spec-side definitions
used to compare the specification's wording with the code.
-/

/-- Lines of a manifest text. -/
def m3u8Lines (s : String) : List String :=
  (splitCh '\n' s.data).map String.mk

/-- The `#EXT-X-STREAM-INF` header lines of a manifest, in order. -/
def streamInfLines (s : String) : List String :=
  (m3u8Lines s).filter (fun l => "#EXT-X-STREAM-INF".data.isPrefixOf l.data)

/-- The non-empty, non-tag lines of a manifest — the variant URIs a
player will fetch, in order. -/
def uriLines (s : String) : List String :=
  (m3u8Lines s).filter (fun l => decide (l.data ≠ []) && !("#".data.isPrefixOf l.data))

/-- Spec-side definition, modelled from the claim's words: a source key
matching `courses/{courseId}/videos/{filename}.{mp4|mov|avi}` with the
two literal segments in lower case and only the extension
case-insensitive, `courseId` and `filename` non-empty and free of path
separators (the data-model invariant).  For comparison with
`validateS3Key`. -/
def specKeyPatternExtCI (key : String) : Bool :=
  match splitCh '/' key.data with
  | [a, b, c, d] =>
    decide (a = "courses".data) && decide (b ≠ []) && decide (c = "videos".data) &&
    (match breakAtDot d.reverse with
     | some (extRev, stemRev) =>
       decide (stemRev ≠ []) && videoExts.contains (lowerL extRev.reverse)
     | none => false)
  | _ => false

/-- Spec-side definition, modelled from the claim's words amended to
whole-key case-insensitivity (the `/i` flag of the source regex spans
the literal segments too): like `specKeyPatternExtCI` but comparing the
literal segments case-insensitively. -/
def specKeyPatternCI (key : String) : Bool :=
  match splitCh '/' key.data with
  | [a, b, c, d] =>
    decide (lowerL a = "courses".data) && decide (b ≠ []) &&
    decide (lowerL c = "videos".data) &&
    (match breakAtDot d.reverse with
     | some (extRev, stemRev) =>
       decide (stemRev ≠ []) && videoExts.contains (lowerL extRev.reverse)
     | none => false)
  | _ => false

end SpecSide

section Claims

/-!
Claim-level theorems.  Each claim of the specification review gets one
theorem (with a witness instantiation when the theorem has hypotheses),
plus a counterexample theorem where the claim fails on the code.
-/

/-- Auxiliary: `wrGo` on an always-failing operation runs out all its
fuel, sleeps the capped exponential delays, and ends with the last
attempt's error. -/
lemma wrGo_allFail {E α : Type} (op : Nat → Except E α) (e : Nat → E)
    (hop : ∀ k, op k = Except.error (e k)) :
    ∀ (fuel attempt : Nat), 1 ≤ fuel → 1 ≤ attempt →
      wrGo op attempt fuel =
        ⟨Except.error (some (e (attempt + fuel - 1))), fuel,
         (List.range (fuel - 1)).map (fun i => min (1000 * 2 ^ (attempt - 1 + i)) 10000)⟩ := by
  intro fuel
  induction fuel with
  | zero => intro attempt h _; omega
  | succ f ih =>
    intro attempt _ ha
    rcases Nat.eq_zero_or_pos f with hf | hf
    · subst hf
      simp [wrGo, hop attempt]
    · have hne : f ≠ 0 := by omega
      rw [wrGo, hop attempt]
      simp only [hne, if_false]
      rw [ih (attempt + 1) hf (by omega)]
      simp only [RetryOut.mk.injEq]
      refine ⟨by rw [show attempt + 1 + f - 1 = attempt + (f + 1) - 1 from by omega], by omega, ?_⟩
      rw [show f + 1 - 1 = (f - 1) + 1 from by omega, List.range_succ_eq_map,
        List.map_cons, List.map_map]
      refine congrArg₂ _ (by rw [show attempt - 1 + 0 = attempt - 1 from by omega]) ?_
      refine List.map_congr_left (fun j _ => ?_)
      have h3 : attempt - 1 + (j + 1) = attempt + j := by omega
      simp [Function.comp, h3]

/-- Auxiliary: `rwbGo` on an always-failing operation, symmetric to
`wrGo_allFail`, with the consumer's `5000` delay ceiling. -/
lemma rwbGo_allFail {E α : Type} (op : Nat → Except E α) (e : Nat → E)
    (hop : ∀ k, op k = Except.error (e k)) :
    ∀ (fuel i : Nat), 1 ≤ fuel →
      rwbGo op i fuel =
        ⟨Except.error (some (e (i + fuel - 1))), fuel,
         (List.range (fuel - 1)).map (fun j => min (1000 * 2 ^ (i + j)) 5000)⟩ := by
  intro fuel
  induction fuel with
  | zero => intro i h; omega
  | succ f ih =>
    intro i _
    rcases Nat.eq_zero_or_pos f with hf | hf
    · subst hf
      simp [rwbGo, hop i]
    · have hne : f ≠ 0 := by omega
      rw [rwbGo, hop i]
      simp only [hne, if_false]
      rw [ih (i + 1) hf]
      simp only [RetryOut.mk.injEq]
      refine ⟨by rw [show i + 1 + f - 1 = i + (f + 1) - 1 from by omega], by omega, ?_⟩
      rw [show f + 1 - 1 = (f - 1) + 1 from by omega, List.range_succ_eq_map,
        List.map_cons, List.map_map]
      refine congrArg₂ _ (by rw [show i + 0 = i from by omega]) ?_
      refine List.map_congr_left (fun j _ => ?_)
      have h3 : i + (j + 1) = i + 1 + j := by omega
      simp [Function.comp, h3]

/-- C5: an operation that fails on every attempt is attempted exactly
`maxAttempts` times by both retry executors, the delay slept before
retry `k+1` is `min (1000 * 2 ^ (k-1)) ceiling` (ceiling `10000` for the
transcoder's `withRetry`, `5000` for the consumer's `retryWithBackoff`),
and the error finally raised is exactly the last underlying failure —
the last attempt's own error, not a generic one — whenever at least one
attempt executed. -/
theorem c5_retry_exhaustion {E α : Type} (op : Nat → Except E α) (e : Nat → E) (m : Nat)
    (hm : 1 ≤ m) (hop : ∀ k, op k = Except.error (e k)) :
    withRetry op m =
      ⟨Except.error (some (e m)), m, (List.range (m - 1)).map (fun k => min (1000 * 2 ^ k) 10000)⟩
    ∧ retryWithBackoff op m =
      ⟨Except.error (some (e (m - 1))), m,
       (List.range (m - 1)).map (fun k => min (1000 * 2 ^ k) 5000)⟩ := by
  constructor
  · have h := wrGo_allFail op e hop m 1 hm (le_refl 1)
    rw [show 1 + m - 1 = m from by omega] at h
    simpa [withRetry] using h
  · have h := rwbGo_allFail op e hop m 0 hm
    rw [show 0 + m - 1 = m - 1 from by omega] at h
    simpa [retryWithBackoff] using h

/-- Witness for C5 at `maxAttempts = 3`: three attempts, delays
`[1000, 2000]`, and the surfaced error is the last attempt's own
(`"3"` for the 1-indexed executor, `"2"` for the 0-indexed one). -/
theorem c5_retry_exhaustion_witness :
    withRetry (fun k => (Except.error (toString k) : Except String Nat)) 3 =
      ⟨Except.error (some "3"), 3, [1000, 2000]⟩
    ∧ retryWithBackoff (fun k => (Except.error (toString k) : Except String Nat)) 3 =
      ⟨Except.error (some "2"), 3, [1000, 2000]⟩ := by
  have h := c5_retry_exhaustion (fun k => (Except.error (toString k) : Except String Nat))
    (fun k => toString k) 3 (by decide) (fun k => rfl)
  exact ⟨h.1.trans (by decide), h.2.trans (by decide)⟩

/-- C3 (divergence witness): a synthetic test notification
`{Service, Event: "s3:TestEvent"}` is not acknowledged: the dispatcher
throws `Test event received`, so the message has its visibility extended
and is left in the queue instead of being deleted without action. -/
theorem c3_test_event_visibility_extended :
    processMessage ⟨fun _ _ => true⟩
      ⟨"test-msg", some (.serviceEvent "s3:TestEvent"), "rh-test"⟩
      = (MsgOutcome.visibilityExtended, Except.error "Test event received") := by
  rfl

/-- C10: `generateUrl` defaults the expiry to 3600 seconds, returns
`expiresAt` exactly `now + expiresIn` seconds (so within any 1-second
tolerance), invokes the signer exactly once on a valid key, and rejects
a key containing a character outside `[a-zA-Z0-9-_/]` with an
invalid-key error before the signer is ever invoked. -/
theorem c10_signed_url_contract (env : UEnv) (now : Nat) (videoKey : String)
    (expiresIn? : Option Nat) :
    (isValidKey videoKey = true →
      generateUrl env now videoKey expiresIn? =
        (VideoResponse.success
          { url := env.sign videoKey (expiresIn?.getD 3600),
            expiresIn := expiresIn?.getD 3600,
            expiresAt := now + (expiresIn?.getD 3600) * 1000 },
         [(videoKey, expiresIn?.getD 3600)]))
    ∧ (isValidKey videoKey = false →
      generateUrl env now videoKey expiresIn? =
        (VideoResponse.failure "Invalid videoKey format", [])) := by
  constructor <;> intro h <;> simp [generateUrl, h]

/-- Witness for C10: a valid key with no expiry gets the 3600-second
default and the exact expiry stamp with one signer call; the key
`"bad key"` (a space is outside the class) is rejected with zero signer
calls. -/
theorem c10_signed_url_contract_witness :
    generateUrl ⟨fun k _ => k⟩ 1700000000000 "c1/hls/v1/master" none =
      (VideoResponse.success
        ⟨"c1/hls/v1/master", 3600, 1700000000000 + 3600 * 1000⟩,
       [("c1/hls/v1/master", 3600)])
    ∧ generateUrl ⟨fun k _ => k⟩ 1700000000000 "bad key" (some 60) =
      (VideoResponse.failure "Invalid videoKey format", []) := by
  exact ⟨(c10_signed_url_contract ⟨fun k _ => k⟩ 1700000000000 "c1/hls/v1/master" none).1
           (by decide),
         (c10_signed_url_contract ⟨fun k _ => k⟩ 1700000000000 "bad key" (some 60)).2
           (by decide)⟩

/-- C8 (divergence witness): at the configured variants the master
playlist has exactly four stream-info entries, in configuration order,
with bandwidths `bitrate * 1000` — but each entry's URI is
`{width}x{height}/playlist.m3u8`, while `uploadHLSFiles` uploads every
variant playlist under `{name}/playlist.m3u8`; no URI the master
references coincides with any uploaded variant playlist path. -/
theorem c8_master_references_unuploaded_paths :
    streamInfLines masterContent =
      [ "#EXT-X-STREAM-INF:BANDWIDTH=5000000,RESOLUTION=1920x1080,CODECS=\"avc1.4d401f,mp4a.40.2\"",
        "#EXT-X-STREAM-INF:BANDWIDTH=2800000,RESOLUTION=1280x720,CODECS=\"avc1.4d401f,mp4a.40.2\"",
        "#EXT-X-STREAM-INF:BANDWIDTH=1400000,RESOLUTION=854x480,CODECS=\"avc1.4d401f,mp4a.40.2\"",
        "#EXT-X-STREAM-INF:BANDWIDTH=800000,RESOLUTION=640x360,CODECS=\"avc1.4d401f,mp4a.40.2\"" ]
    ∧ uriLines masterContent =
      ["1920x1080/playlist.m3u8", "1280x720/playlist.m3u8",
       "854x480/playlist.m3u8", "640x360/playlist.m3u8"]
    ∧ uploadHLSFiles "c/hls/v" ⟨"1080p", 1920, 1080, "5000k"⟩ ["playlist.m3u8"] =
      [("c/hls/v/1080p/playlist.m3u8", "application/x-mpegURL")]
    ∧ ∀ u ∈ uriLines masterContent,
        u ∉ RESOLUTIONS.map (fun r => r.name ++ "/playlist.m3u8") := by
  exact ⟨by decide, by decide, by decide, by decide⟩

/-- Auxiliary: one record's step succeeds exactly when the record is
skipped as invalid or its retried launch succeeds. -/
lemma recordStep_ok_iff (env : CEnv) (rec : S3Record) :
    (recordStep env rec).1 = Except.ok () ↔
      (validateS3Key rec.key = false ∨ (launchWithRetry env rec).outcome = Except.ok ()) := by
  cases hv : validateS3Key rec.key with
  | false => simp [recordStep, hv]
  | true =>
    simp only [recordStep, hv, if_true]
    cases h : (launchWithRetry env rec).outcome with
    | ok a => cases a; simp [h]
    | error e => cases e <;> simp [h]

/-- Auxiliary: the record loop succeeds exactly when every record's step
does. -/
lemma recordsLoop_ok_iff (env : CEnv) (recs : List S3Record) :
    (recordsLoop env recs).1 = Except.ok () ↔
      ∀ r ∈ recs, (recordStep env r).1 = Except.ok () := by
  induction recs with
  | nil => simp [recordsLoop]
  | cons rec rest ih =>
    rcases h : recordStep env rec with ⟨res, ls⟩
    cases res with
    | ok u =>
      cases u
      simp only [recordsLoop, h]
      simp [List.forall_mem_cons, ih, h]
    | error e =>
      simp only [recordsLoop, h]
      simp [List.forall_mem_cons, h]

/-- Auxiliary: a message is acknowledged (deleted) exactly when its body
is an S3 records event and every record is skipped as invalid or
successfully dispatched. -/
lemma processMessage_ack_iff (env : CEnv) (m : SqsMsg) :
    (processMessage env m).1 = MsgOutcome.acknowledged ↔
      ∃ recs, m.body = some (MsgBody.s3Event recs) ∧
        ∀ r ∈ recs,
          validateS3Key r.key = false ∨ (launchWithRetry env r).outcome = Except.ok () := by
  cases hb : m.body with
  | none => simp [processMessage, processMessageTry, hb]
  | some b =>
    cases b with
    | malformed => simp [processMessage, processMessageTry, validateAndParseEvent, hb]
    | serviceEvent ev =>
      by_cases he : ev = "s3:TestEvent" <;>
        simp [processMessage, processMessageTry, validateAndParseEvent, hb, he]
    | s3Event recs =>
      simp only [processMessage, processMessageTry, validateAndParseEvent, hb]
      rcases h : (recordsLoop env recs).1 with e | u
      · simp only [h]
        constructor
        · intro hc; exact absurd hc (by simp)
        · rintro ⟨recs2, heq, hall⟩
          have hre : recs2 = recs := by simpa using heq.symm
          subst hre
          have hok : (recordsLoop env recs2).1 = Except.ok () :=
            (recordsLoop_ok_iff env recs2).mpr
              (fun r hr => (recordStep_ok_iff env r).mpr (hall r hr))
          rw [h] at hok
          exact absurd hok (by simp)
      · cases u
        simp only [h]
        constructor
        · intro _
          exact ⟨recs, rfl,
            fun r hr => (recordStep_ok_iff env r).mp
              ((recordsLoop_ok_iff env recs).mp h r hr)⟩
        · intro _; trivial

/-- Oracle for the C6 batch instance: every ECS launch from the bucket
`"fail-bucket"` fails on every attempt, all others succeed. -/
def c6Env : CEnv := ⟨fun rec _ => rec.bucket != "fail-bucket"⟩

/-- First message of the C6 batch: one valid record that dispatches. -/
def c6m1 : SqsMsg := ⟨"m1", some (.s3Event [⟨"uploads", "courses/a/videos/x.mp4"⟩]), "r1"⟩

/-- Second message of the C6 batch: one valid record whose launch fails
on every attempt. -/
def c6m2 : SqsMsg := ⟨"m2", some (.s3Event [⟨"fail-bucket", "courses/b/videos/y.mp4"⟩]), "r2"⟩

/-- Third message of the C6 batch: one valid record that dispatches. -/
def c6m3 : SqsMsg := ⟨"m3", some (.s3Event [⟨"uploads", "courses/c/videos/z.mp4"⟩]), "r3"⟩

/-- C6: a message is deleted iff every record in it was dispatched or
skipped as invalid; any propagated error leaves the message with its
visibility extended (never deleted); and in a batch of three where the
second message's dispatch fails, messages one and three are acknowledged
while message two is visibility-extended, with the batch itself
returning normally (each message's rejection is caught individually). -/
theorem c6_ack_semantics (env : CEnv) (m : SqsMsg) :
    ((processMessage env m).1 = MsgOutcome.acknowledged ↔
      ∃ recs, m.body = some (MsgBody.s3Event recs) ∧
        ∀ r ∈ recs,
          validateS3Key r.key = false ∨ (launchWithRetry env r).outcome = Except.ok ())
    ∧ (∀ e, (processMessage env m).2 = Except.error e →
        (processMessage env m).1 = MsgOutcome.visibilityExtended)
    ∧ processBatch c6Env [c6m1, c6m2, c6m3] =
        [MsgOutcome.acknowledged, MsgOutcome.visibilityExtended, MsgOutcome.acknowledged] := by
  refine ⟨processMessage_ack_iff env m, ?_, by decide⟩
  intro e he
  unfold processMessage at he ⊢
  rcases h : processMessageTry env m with e' | u
  · simp [h]
  · rw [h] at he
    exact absurd he (by simp)

/-- Witness for C6: in the concrete batch, the failing message ends
visibility-extended (obtained from the error-propagation clause at the
propagated launch error). -/
theorem c6_ack_semantics_witness :
    (processMessage c6Env c6m2).1 = MsgOutcome.visibilityExtended :=
  (c6_ack_semantics c6Env c6m2).2.1 "ECS launch failed" (by decide)

/-- Auxiliary: a failed download short-circuits the pipeline; the work
directory is still removed but the pipeline performs no encoder call
and no upload. -/
lemma processVideo_dlErr {env : TEnv} {key e : String} {cwd : CwdFiles}
    (hd : downloadFromS3 env key [] = (Except.error e, cwd)) :
    processVideo env key =
      { result := Except.error e, encoderCalls := [], uploads := [],
        cwdFiles := cwd, workDirRemoved := true } := by
  unfold processVideo
  rw [hd]

/-- Auxiliary: a failed canary (test) transcode aborts the job after a
single encoder invocation and before any upload. -/
lemma processVideo_canaryFail {env : TEnv} {key path : String} {cwd : CwdFiles}
    (hd : downloadFromS3 env key [] = (Except.ok path, cwd))
    (hc : env.transcodeOk "360p" = false) :
    processVideo env key =
      { result := Except.error "Test transcoding failed: Transcoding failed: 360p",
        encoderCalls := ["360p"], uploads := [],
        cwdFiles := cwd, workDirRemoved := true } := by
  have ht : transcodeToHLS env (RESOLUTIONS.getLastD defaultResolution) =
      Except.error "Transcoding failed: 360p" := by
    unfold transcodeToHLS
    rw [show (RESOLUTIONS.getLastD defaultResolution).name = "360p" from rfl, hc]
    rfl
  simp only [processVideo, hd, ht]
  rfl

/-- Auxiliary: with the download and the canary transcode both
successful, the run is determined by the fan-out over
`RESOLUTIONS.dropLast`, joined by its first error. -/
lemma processVideo_fanout {env : TEnv} {key path : String} {cwd : CwdFiles}
    (hd : downloadFromS3 env key [] = (Except.ok path, cwd))
    (hc : env.transcodeOk "360p" = true) :
    processVideo env key =
      match firstErr (RESOLUTIONS.dropLast.map (variantStep env (generateS3Paths key))) with
      | some e =>
        { result := Except.error e,
          encoderCalls :=
            "360p" :: (RESOLUTIONS.dropLast.map
              (variantStep env (generateS3Paths key))).flatMap VariantOut.encoderCalls,
          uploads := (RESOLUTIONS.dropLast.map
            (variantStep env (generateS3Paths key))).flatMap VariantOut.uploads,
          cwdFiles := cwd, workDirRemoved := true }
      | none =>
        { result := Except.ok true,
          encoderCalls :=
            "360p" :: (RESOLUTIONS.dropLast.map
              (variantStep env (generateS3Paths key))).flatMap VariantOut.encoderCalls,
          uploads := ((RESOLUTIONS.dropLast.map
            (variantStep env (generateS3Paths key))).flatMap VariantOut.uploads)
            ++ [(getMasterPlaylistKey (generateS3Paths key), "application/x-mpegURL")],
          cwdFiles := cwd, workDirRemoved := true } := by
  have ht : transcodeToHLS env (RESOLUTIONS.getLastD defaultResolution) =
      Except.ok (variantLocalFiles env (RESOLUTIONS.getLastD defaultResolution)) := by
    unfold transcodeToHLS
    rw [show (RESOLUTIONS.getLastD defaultResolution).name = "360p" from rfl, hc]
    rfl
  simp only [processVideo, hd, ht]
  rfl

/-- C7: in every run the canary `360p` is the first encoder invocation
(it strictly precedes any other variant), and if the canary transcode
fails then no other variant's encoder is ever invoked and the whole job
fails. -/
theorem c7_canary_first (env : TEnv) (key : String) :
    ((processVideo env key).encoderCalls ≠ [] →
      (processVideo env key).encoderCalls.head? = some "360p")
    ∧ (env.transcodeOk "360p" = false →
      (∀ n ∈ (processVideo env key).encoderCalls, n = "360p")
      ∧ ∃ e, (processVideo env key).result = Except.error e) := by
  rcases hd : downloadFromS3 env key [] with ⟨res, cwd⟩
  cases res with
  | error e =>
    rw [processVideo_dlErr hd]
    exact ⟨fun h => absurd rfl h, fun _ => ⟨by simp, ⟨e, rfl⟩⟩⟩
  | ok path =>
    cases hc : env.transcodeOk "360p" with
    | false =>
      rw [processVideo_canaryFail hd hc]
      exact ⟨fun _ => rfl, fun _ => ⟨by simp, ⟨_, rfl⟩⟩⟩
    | true =>
      rw [processVideo_fanout hd hc]
      constructor
      · intro _
        cases hfe : firstErr (RESOLUTIONS.dropLast.map (variantStep env (generateS3Paths key))) <;>
          simp [hfe]
      · intro hfalse
        exact absurd hfalse (by decide)

/-- Witness for C7 at a run whose canary transcode fails: the only
encoder call is the canary and the job errors out. -/
theorem c7_canary_first_witness :
    (processVideo ⟨[], fun _ => GetOutcome.body 5, fun _ => false, fun _ => 2⟩
        "courses/c7/videos/v.mp4").encoderCalls.head? = some "360p" :=
  (c7_canary_first ⟨[], fun _ => GetOutcome.body 5, fun _ => false, fun _ => 2⟩
    "courses/c7/videos/v.mp4").1 (by decide)

/-- Auxiliary: a first write creates the file. -/
lemma writeFileAt_nil (fp : String) : writeFileAt [] fp = [fp] := by
  simp [writeFileAt]

/-- Auxiliary: rewriting the same path leaves the file list unchanged. -/
lemma writeFileAt_self (fp : String) : writeFileAt [fp] fp = [fp] := by
  simp [writeFileAt, List.contains_cons]

/-- Auxiliary: when every download attempt streams an empty body, the
retried download fails with the source's empty-file error, and the
partly streamed file `original-{basename}` has been created on disk
(outside the scoped work directory). -/
lemma downloadFromS3_empty {env : TEnv} (key : String)
    (h : ∀ k, env.getObject k = GetOutcome.body 0) :
    downloadFromS3 env key [] =
      (Except.error "Downloaded file is empty", ["original-" ++ basename key]) := by
  simp [downloadFromS3, wrStGo, downloadAttempt, h, writeFileAt_nil, writeFileAt_self]

/-- C4 (amended): the scoped work directory is removed on every exit
path; but after a job that fails at the download step because the
transfer yields an empty file on every attempt, the downloaded source
file — written outside the workspace — remains on disk. -/
theorem c4_cleanup_scope (env : TEnv) (key : String) :
    (processVideo env key).workDirRemoved = true
    ∧ ((∀ k, env.getObject k = GetOutcome.body 0) →
        (processVideo env key).result = Except.error "Downloaded file is empty"
        ∧ (processVideo env key).cwdFiles = ["original-" ++ basename key]) := by
  constructor
  · rcases hd : downloadFromS3 env key [] with ⟨res, cwd⟩
    cases res with
    | error e => rw [processVideo_dlErr hd]
    | ok path =>
      cases hc : env.transcodeOk "360p" with
      | false => rw [processVideo_canaryFail hd hc]
      | true =>
        rw [processVideo_fanout hd hc]
        cases hfe : firstErr (RESOLUTIONS.dropLast.map (variantStep env (generateS3Paths key))) <;>
          simp [hfe]
  · intro h
    rw [processVideo_dlErr (downloadFromS3_empty key h)]
    exact ⟨rfl, rfl⟩

/-- Environment for the C4 instance: every download attempt streams an
empty body. -/
def c4Env : TEnv := ⟨[], fun _ => GetOutcome.body 0, fun _ => true, fun _ => 2⟩

/-- C4 (counterexample to the claim as stated): after the download step
fails on an empty transfer, the temporary file `original-v.mp4` created
by the job is still on disk — the claim's "no temporary files remain"
is false — even though the work directory itself was removed. -/
theorem c4_download_leaves_source_file :
    (processVideo c4Env "courses/c4/videos/v.mp4").result =
        Except.error "Downloaded file is empty"
    ∧ (processVideo c4Env "courses/c4/videos/v.mp4").workDirRemoved = true
    ∧ (processVideo c4Env "courses/c4/videos/v.mp4").cwdFiles = ["original-v.mp4"]
    ∧ (["original-v.mp4"] : List String) ≠ [] := by
  refine ⟨by decide, by decide, by decide, by decide⟩

/-- Witness for C4 (amended) at the empty-download environment. -/
theorem c4_cleanup_scope_witness :
    (processVideo c4Env "courses/c4w/videos/w.mp4").result =
        Except.error "Downloaded file is empty"
    ∧ (processVideo c4Env "courses/c4w/videos/w.mp4").cwdFiles =
        ["original-" ++ basename "courses/c4w/videos/w.mp4"] :=
  (c4_cleanup_scope c4Env "courses/c4w/videos/w.mp4").2 (fun _ => rfl)

/-- Auxiliary: a variant whose destination playlist already exists is
skipped with no error, no encoder call and no upload. -/
lemma variantStep_skip {env : TEnv} {p : S3Paths} {r : Resolution}
    (hs : checkFileExists env.prodStore (getVariantPlaylistKey p r.name) = true) :
    variantStep env p r = ⟨none, [], []⟩ := by
  simp [variantStep, hs]

/-- Auxiliary: the three remaining variants of `RESOLUTIONS`. -/
lemma resolutions_dropLast :
    RESOLUTIONS.dropLast =
      [⟨"1080p", 1920, 1080, "5000k"⟩, ⟨"720p", 1280, 720, "2800k"⟩,
       ⟨"480p", 854, 480, "1400k"⟩] := rfl

/-- C1 (amended): re-running the pipeline when every remaining variant's
destination playlist already exists performs exactly one encoder
invocation — the canary `360p`, whose transcode has no idempotency check
— and zero variant uploads; the master manifest alone is re-uploaded,
and it references all four configured variants. -/
theorem c1_second_run_skips_variants (env : TEnv) (key : String)
    (hstore : ∀ r ∈ RESOLUTIONS.dropLast,
        checkFileExists env.prodStore
          (getVariantPlaylistKey (generateS3Paths key) r.name) = true)
    (hdl : ∃ path cwd, downloadFromS3 env key [] = (Except.ok path, cwd))
    (hcanary : env.transcodeOk "360p" = true) :
    (processVideo env key).result = Except.ok true
    ∧ (processVideo env key).encoderCalls = ["360p"]
    ∧ (processVideo env key).uploads =
        [(getMasterPlaylistKey (generateS3Paths key), "application/x-mpegURL")]
    ∧ (streamInfLines masterContent).length = 4 := by
  obtain ⟨path, cwd, hd⟩ := hdl
  have h1080 := hstore ⟨"1080p", 1920, 1080, "5000k"⟩ (by rw [resolutions_dropLast]; simp)
  have h720 := hstore ⟨"720p", 1280, 720, "2800k"⟩ (by rw [resolutions_dropLast]; simp)
  have h480 := hstore ⟨"480p", 854, 480, "1400k"⟩ (by rw [resolutions_dropLast]; simp)
  have houts : RESOLUTIONS.dropLast.map (variantStep env (generateS3Paths key)) =
      [⟨none, [], []⟩, ⟨none, [], []⟩, ⟨none, [], []⟩] := by
    rw [resolutions_dropLast, List.map_cons, List.map_cons, List.map_cons, List.map_nil,
      variantStep_skip h1080, variantStep_skip h720, variantStep_skip h480]
  rw [processVideo_fanout hd hcanary, houts]
  exact ⟨rfl, rfl, rfl, by decide⟩

/-- Environment for the C1 instance: every destination artifact of the
job (all four variant playlists with their segments, and the master
manifest) already exists in the production bucket, the download
succeeds, and the encoder would succeed for any variant. -/
def c1Env : TEnv :=
  { prodStore :=
      [ "c1/hls/v/1080p/playlist.m3u8", "c1/hls/v/1080p/segment_000.ts",
        "c1/hls/v/1080p/segment_001.ts",
        "c1/hls/v/720p/playlist.m3u8", "c1/hls/v/720p/segment_000.ts",
        "c1/hls/v/720p/segment_001.ts",
        "c1/hls/v/480p/playlist.m3u8", "c1/hls/v/480p/segment_000.ts",
        "c1/hls/v/480p/segment_001.ts",
        "c1/hls/v/360p/playlist.m3u8", "c1/hls/v/360p/segment_000.ts",
        "c1/hls/v/360p/segment_001.ts",
        "c1/hls/v/master.m3u8" ],
    getObject := fun _ => GetOutcome.body 5,
    transcodeOk := fun _ => true,
    segCount := fun _ => 2 }

/-- C1 (counterexample to the claim as stated): with the destination
fully populated, the second run still performs one encoder invocation —
the canary — so the claimed "zero encoder invocations" is false, even
though the run succeeds with no variant upload and re-uploads the
master. -/
theorem c1_second_run_reencodes_canary :
    (processVideo c1Env "courses/c1/videos/v.mp4").result = Except.ok true
    ∧ (processVideo c1Env "courses/c1/videos/v.mp4").encoderCalls = ["360p"]
    ∧ (processVideo c1Env "courses/c1/videos/v.mp4").encoderCalls ≠ [] := by
  refine ⟨by decide, by decide, by decide⟩

/-- Witness for C1 (amended) at the fully-populated destination. -/
theorem c1_second_run_skips_variants_witness :
    (processVideo c1Env "courses/c1/videos/v.mp4").result = Except.ok true
    ∧ (processVideo c1Env "courses/c1/videos/v.mp4").encoderCalls = ["360p"]
    ∧ (processVideo c1Env "courses/c1/videos/v.mp4").uploads =
        [("c1/hls/v/master.m3u8", "application/x-mpegURL")] := by
  have h := c1_second_run_skips_variants c1Env "courses/c1/videos/v.mp4"
    (by decide) ⟨"original-v.mp4", ["original-v.mp4"], by decide⟩ (by decide)
  exact ⟨h.1, h.2.1, h.2.2.1.trans (by decide)⟩

/-- Auxiliary: string equality from data equality. -/
lemma str_ext {s t : String} (h : s.data = t.data) : s = t :=
  congrArg String.mk h

/-- Auxiliary: a shared prefix cancels on both sides of a list-prefix. -/
lemma cancelPrefixLeft {α : Type} (t a b : List α) : (t ++ a <+: t ++ b) ↔ (a <+: b) := by
  constructor
  · rintro ⟨u, hu⟩
    refine ⟨u, ?_⟩
    have h2 : t ++ (a ++ u) = t ++ b := by simpa [List.append_assoc] using hu
    exact List.append_cancel_left h2
  · rintro ⟨u, hu⟩
    exact ⟨u, by simp [List.append_assoc, hu]⟩

/-- Auxiliary: lists with different heads are not prefix-related. -/
lemma not_cons_prefix_of_head {a b : Char} (h : a ≠ b) (xs ys : List Char) :
    ¬ (a :: xs <+: b :: ys) := fun hp => h (List.cons_prefix_cons.mp hp).1

/-- Auxiliary: the variant playlist key is the playlist file's upload
key under the HLS base path. -/
lemma getVariantPlaylistKey_as_upload (p : S3Paths) (r : String) :
    getVariantPlaylistKey p r = getHLSBasePath p ++ "/" ++ r ++ "/" ++ "playlist.m3u8" := by
  apply str_ext
  have h : ("/playlist.m3u8" : String).data =
      ("/" : String).data ++ ("playlist.m3u8" : String).data := rfl
  simp [getVariantPlaylistKey, getHLSBasePath, String.data_append, List.append_assoc, h]

/-- Auxiliary: the master playlist key sits directly under the HLS base
path. -/
lemma getMasterPlaylistKey_as_base (p : S3Paths) :
    getMasterPlaylistKey p = getHLSBasePath p ++ "/master.m3u8" := rfl

/-- Auxiliary: every upload a variant task performs is keyed under that
variant's own directory beneath the HLS base path. -/
lemma variantStep_uploads_shape {env : TEnv} {p : S3Paths} {r : Resolution} :
    ∀ u ∈ (variantStep env p r).uploads,
      ∃ f : String, u.1 = getHLSBasePath p ++ "/" ++ r.name ++ "/" ++ f := by
  intro u hu
  unfold variantStep at hu
  cases hs : checkFileExists env.prodStore (getVariantPlaylistKey p r.name) with
  | true => simp [hs] at hu
  | false =>
    cases htr : transcodeToHLS env r with
    | error e => simp [hs, htr] at hu
    | ok files =>
      simp only [hs, htr, Bool.false_eq_true, if_false] at hu
      simp only [uploadHLSFiles, List.mem_map] at hu
      obtain ⟨f, _, hfu⟩ := hu
      exact ⟨f, by rw [← hfu]⟩

/-- Auxiliary: no error is reported by the fan-out join exactly when no
settled task reported one. -/
lemma firstErr_eq_none {outs : List VariantOut} :
    firstErr outs = none ↔ ∀ o ∈ outs, o.err = none := by
  induction outs with
  | nil => simp [firstErr]
  | cons o rest ih => cases ho : o.err <;> simp [firstErr, ho, ih]

/-- Auxiliary: a non-skipped variant task runs the encoder and uploads
its produced files. -/
lemma variantStep_run {env : TEnv} {p : S3Paths} {r : Resolution}
    (hs : checkFileExists env.prodStore (getVariantPlaylistKey p r.name) = false)
    (ht : env.transcodeOk r.name = true) :
    variantStep env p r =
      ⟨none, [r.name], uploadHLSFiles (getHLSBasePath p) r (variantLocalFiles env r)⟩ := by
  simp [variantStep, hs, transcodeToHLS, ht]

/-- Auxiliary: a non-skipped variant task that reported no error had a
successful encoder run. -/
lemma variantStep_err_none_run {env : TEnv} {p : S3Paths} {r : Resolution}
    (hs : checkFileExists env.prodStore (getVariantPlaylistKey p r.name) = false)
    (he : (variantStep env p r).err = none) :
    env.transcodeOk r.name = true := by
  by_contra hft
  have ht : env.transcodeOk r.name = false := by
    simpa using hft
  simp [variantStep, hs, transcodeToHLS, ht] at he

/-- Auxiliary: a non-skipped, successfully transcoded variant uploads
its own playlist with the manifest content type. -/
lemma variantStep_playlist_uploaded {env : TEnv} {p : S3Paths} {r : Resolution}
    (hs : checkFileExists env.prodStore (getVariantPlaylistKey p r.name) = false)
    (ht : env.transcodeOk r.name = true) :
    (getVariantPlaylistKey p r.name, "application/x-mpegURL") ∈ (variantStep env p r).uploads := by
  rw [variantStep_run hs ht]
  simp only [uploadHLSFiles]
  apply List.mem_map.mpr
  refine ⟨"playlist.m3u8", ?_, ?_⟩
  · simp [variantLocalFiles]
  · rw [getVariantPlaylistKey_as_upload]
    rfl

/-- Auxiliary: the canary's directory prefix never matches an upload key
of a variant whose name starts with a character other than `'3'`. -/
lemma canaryDirNoMatch {B nm f : String} (c : Char) (cs : Chars)
    (hnm : nm.data = c :: cs) (hc : c ≠ '3') :
    ¬ ((B ++ "/360p/").data <+: (B ++ "/" ++ nm ++ "/" ++ f).data) := by
  intro hp
  simp only [String.data_append, List.append_assoc] at hp
  rw [cancelPrefixLeft] at hp
  simp only [List.cons_append, List.nil_append] at hp
  have hp2 := (List.cons_prefix_cons.mp hp).2
  rw [hnm] at hp2
  simp only [List.cons_append] at hp2
  exact not_cons_prefix_of_head (fun h33 => hc h33.symm) _ _ hp2

/-- Auxiliary: the canary's directory prefix never matches the master
playlist key. -/
lemma canaryDirNoMatchMaster {B : String} :
    ¬ ((B ++ "/360p/").data <+: (B ++ "/master.m3u8").data) := by
  intro hp
  simp only [String.data_append] at hp
  rw [cancelPrefixLeft] at hp
  exact absurd hp (by decide)

/-- C2: in every successful run, every upload is either the master
manifest or a file under one of the three remaining variants'
directories; no upload lies under the canary `360p` directory (the
canary's playlist and segments are never uploaded); the master manifest
is uploaded and every non-skipped remaining variant's playlist is
uploaded; and the master manifest text references all four configured
variants, the canary included. -/
theorem c2_canary_not_uploaded (env : TEnv) (key : String)
    (hok : (processVideo env key).result = Except.ok true) :
    ((getMasterPlaylistKey (generateS3Paths key), "application/x-mpegURL")
        ∈ (processVideo env key).uploads)
    ∧ (∀ u ∈ (processVideo env key).uploads,
        u.1 = getMasterPlaylistKey (generateS3Paths key)
        ∨ ∃ r ∈ RESOLUTIONS.dropLast,
            (getHLSBasePath (generateS3Paths key) ++ "/" ++ r.name ++ "/").data <+: u.1.data)
    ∧ (∀ u ∈ (processVideo env key).uploads,
        ¬ ((getHLSBasePath (generateS3Paths key) ++ "/360p/").data <+: u.1.data))
    ∧ (∀ r ∈ RESOLUTIONS.dropLast,
        checkFileExists env.prodStore
            (getVariantPlaylistKey (generateS3Paths key) r.name) = false →
          (getVariantPlaylistKey (generateS3Paths key) r.name, "application/x-mpegURL")
            ∈ (processVideo env key).uploads)
    ∧ (streamInfLines masterContent).length = 4
    ∧ "640x360/playlist.m3u8" ∈ uriLines masterContent := by
  rcases hd : downloadFromS3 env key [] with ⟨res, cwd⟩
  cases res with
  | error e =>
    rw [processVideo_dlErr hd] at hok
    exact absurd hok (by simp)
  | ok path =>
    cases hc : env.transcodeOk "360p" with
    | false =>
      rw [processVideo_canaryFail hd hc] at hok
      exact absurd hok (by simp)
    | true =>
      have hfan := processVideo_fanout hd hc
      rw [hfan] at hok
      cases hfe : firstErr (RESOLUTIONS.dropLast.map (variantStep env (generateS3Paths key))) with
      | some e =>
        rw [hfe] at hok
        exact absurd hok (by simp)
      | none =>
        rw [hfan, hfe]
        dsimp only
        refine ⟨?_, ?_, ?_, ?_, by decide, by decide⟩
        · exact List.mem_append_right _ (List.mem_singleton.mpr rfl)
        · intro u hu
          rcases List.mem_append.mp hu with hu | hu
          · rcases List.mem_flatMap.mp hu with ⟨o, ho, huo⟩
            rcases List.mem_map.mp ho with ⟨r, hr, rfl⟩
            obtain ⟨f, hf⟩ := variantStep_uploads_shape u huo
            exact Or.inr ⟨r, hr, by rw [hf, String.data_append]; exact ⟨f.data, rfl⟩⟩
          · rcases List.mem_singleton.mp hu with rfl
            exact Or.inl rfl
        · intro u hu
          rcases List.mem_append.mp hu with hu | hu
          · rcases List.mem_flatMap.mp hu with ⟨o, ho, huo⟩
            rcases List.mem_map.mp ho with ⟨r, hr, rfl⟩
            obtain ⟨f, hf⟩ := variantStep_uploads_shape u huo
            rw [hf]
            rw [resolutions_dropLast] at hr
            simp only [List.mem_cons, List.not_mem_nil, or_false] at hr
            rcases hr with rfl | rfl | rfl
            · exact canaryDirNoMatch '1' ("080p" : String).data rfl (by decide)
            · exact canaryDirNoMatch '7' ("20p" : String).data rfl (by decide)
            · exact canaryDirNoMatch '4' ("80p" : String).data rfl (by decide)
          · rcases List.mem_singleton.mp hu with rfl
            rw [getMasterPlaylistKey_as_base]
            exact canaryDirNoMatchMaster
        · intro r hr hsf
          have herr : (variantStep env (generateS3Paths key) r).err = none :=
            firstErr_eq_none.mp hfe (variantStep env (generateS3Paths key) r)
              (List.mem_map_of_mem _ hr)
          have ht := variantStep_err_none_run hsf herr
          exact List.mem_append_left _
            (List.mem_flatMap.mpr
              ⟨variantStep env (generateS3Paths key) r, List.mem_map_of_mem _ hr,
               variantStep_playlist_uploaded hsf ht⟩)

/-- Environment for the C2 witness: empty destination, all encodes
succeed, two segments per variant. -/
def c2Env : TEnv := ⟨[], fun _ => GetOutcome.body 5, fun _ => true, fun _ => 2⟩

/-- Witness for C2: in a concrete successful run the master manifest
upload is present (and by the theorem, nothing under the canary
directory is). -/
theorem c2_canary_not_uploaded_witness :
    ("c2/hls/v/master.m3u8", "application/x-mpegURL")
      ∈ (processVideo c2Env "courses/c2/videos/v.mp4").uploads :=
  (c2_canary_not_uploaded c2Env "courses/c2/videos/v.mp4" (by decide)).1

/-- Auxiliary: splitting a separator-free list yields one part. -/
lemma splitCh_no_sep {sep : Char} {xs : Chars} (h : sep ∉ xs) : splitCh sep xs = [xs] := by
  induction xs with
  | nil => rfl
  | cons c cs ih =>
    have hc : ¬ (c = sep) := fun hcc => h (hcc ▸ List.mem_cons_self c cs)
    have hcs : sep ∉ cs := fun hm => h (List.mem_cons_of_mem c hm)
    simp [splitCh, hc, ih hcs]

/-- Auxiliary: splitting peels one separator-free part at a separator. -/
lemma splitCh_sep_append {sep : Char} {xs : Chars} (h : sep ∉ xs) (ys : Chars) :
    splitCh sep (xs ++ sep :: ys) = xs :: splitCh sep ys := by
  induction xs with
  | nil => simp [splitCh]
  | cons c cs ih =>
    have hc : ¬ (c = sep) := fun hcc => h (hcc ▸ List.mem_cons_self c cs)
    have hcs : sep ∉ cs := fun hm => h (List.mem_cons_of_mem c hm)
    simp [splitCh, hc, ih hcs]

/-- Auxiliary: the reversed-scan splitter finds the marker after a
marker-free prefix. -/
lemma breakAtDot_append {a : Chars} (h : '.' ∉ a) (b : Chars) :
    breakAtDot (a ++ '.' :: b) = some (a, b) := by
  induction a with
  | nil => simp [breakAtDot]
  | cons c cs ih =>
    have hc : ¬ (c = '.') := fun hcc => h (hcc ▸ List.mem_cons_self c cs)
    have hcs : '.' ∉ cs := fun hm => h (List.mem_cons_of_mem c hm)
    simp [breakAtDot, hc, ih hcs]

/-- Auxiliary: stripping the extension recovers the stem whenever the
extension is dot-free and the stem non-empty. -/
lemma pathParseName_stem_ext {stem ext : Chars} (hst : stem ≠ []) (hext : '.' ∉ ext) :
    pathParseName (stem ++ '.' :: ext) = stem := by
  unfold pathParseName
  have hrev : (stem ++ '.' :: ext).reverse = ext.reverse ++ '.' :: stem.reverse := by
    simp [List.reverse_append]
  rw [hrev, breakAtDot_append (by simpa using hext)]
  simp [hst]

/-- Auxiliary: a character fixed by case folding is absent from a string
whenever it is absent from its lowercased image. -/
lemma not_mem_of_fixed_lower {c : Char} (hcfix : lowerCh c = c) {s t : String}
    (h : lowerS s = t) (hct : c ∉ t.data) : c ∉ s.data := by
  intro hm
  apply hct
  have h1 : lowerCh c ∈ (lowerS s).data := by
    simpa [lowerS, lowerL] using List.mem_map_of_mem lowerCh hm
  rw [hcfix, h] at h1
  exact h1

/-- Auxiliary: the dot is absent from the raw extension characters
whenever the lowercased triple equals a dot-free literal. -/
lemma dot_not_mem_of_lower_eq {e1 e2 e3 : Char} {t : Chars} (hm : lowerL [e3, e2, e1] = t)
    (ht : '.' ∉ t) : '.' ∉ [e1, e2, e3] := by
  intro hmm
  apply ht
  rw [← hm]
  have h0 : ('.' : Char) ∈ [e3, e2, e1] := by
    simp only [List.mem_cons, List.not_mem_nil, or_false] at hmm ⊢
    tauto
  exact List.mem_map_of_mem lowerCh h0

/-- Auxiliary: the last-segment check of `validateS3Key` implies the
case-insensitive last-segment condition of the spec pattern. -/
lemma validLastSeg_to_CI {d : Chars} (h : validLastSeg d = true) :
    (match breakAtDot d.reverse with
     | some (extRev, stemRev) =>
       decide (stemRev ≠ []) && videoExts.contains (lowerL extRev.reverse)
     | none => false) = true := by
  rcases hrev : d.reverse with _ | ⟨e1, _ | ⟨e2, _ | ⟨e3, _ | ⟨c4, stemRev⟩⟩⟩⟩
  · simp [validLastSeg, hrev] at h
  · simp [validLastSeg, hrev] at h
  · simp [validLastSeg, hrev] at h
  · simp [validLastSeg, hrev] at h
  simp only [validLastSeg, hrev, Bool.and_eq_true, decide_eq_true_eq] at h
  obtain ⟨⟨⟨hc4, hst⟩, hall⟩, hcontains⟩ := h
  subst hc4
  have hnd : ('.' : Char) ∉ [e1, e2, e3] := by
    have hmem : lowerL [e3, e2, e1] ∈ videoExts := by simpa using hcontains
    simp only [videoExts, List.mem_cons, List.not_mem_nil, or_false] at hmem
    rcases hmem with hm | hm | hm <;> exact dot_not_mem_of_lower_eq hm (by decide)
  have hbreak : breakAtDot (e1 :: e2 :: e3 :: '.' :: stemRev) = some ([e1, e2, e3], stemRev) :=
    breakAtDot_append hnd stemRev
  rw [hbreak]
  simp [hst]
  simpa using hcontains

/-- C9 (amended): for every source key of the shape
`{courses}/{courseId}/{videos}/{filename}.{ext}` matched
case-insensitively throughout (the two literal segments as well as the
extension, as the source regex's `/i` flag does), parsing recovers
exactly the `courseId` and `filename` substrings; every key the
validator accepts matches the case-insensitive pattern (so every
non-matching key is rejected); and a rejected record is skipped with no
error and no ECS task launch. -/
theorem c9_pattern_roundtrip :
    (∀ (p1 cid p2 fn ext : String),
        lowerS p1 = "courses" → lowerS p2 = "videos" →
        cid.data ≠ [] → '/' ∉ cid.data → fn.data ≠ [] → '/' ∉ fn.data →
        lowerS ext ∈ (["mp4", "mov", "avi"] : List String) →
        generateS3Paths (p1 ++ "/" ++ cid ++ "/" ++ p2 ++ "/" ++ fn ++ "." ++ ext) =
          ⟨cid, fn⟩)
    ∧ (∀ key : String, validateS3Key key = true → specKeyPatternCI key = true)
    ∧ (∀ (env : CEnv) (rec : S3Record), validateS3Key rec.key = false →
        recordStep env rec = (Except.ok (), [])) := by
  refine ⟨?_, ?_, ?_⟩
  · intro p1 cid p2 fn ext h1 h2 hcne hcs hfne hfs hext
    have hp1 : '/' ∉ p1.data := not_mem_of_fixed_lower rfl h1 (by decide)
    have hp2 : '/' ∉ p2.data := not_mem_of_fixed_lower rfl h2 (by decide)
    have hexts : '/' ∉ ext.data ∧ '.' ∉ ext.data := by
      simp only [List.mem_cons, List.not_mem_nil, or_false] at hext
      rcases hext with h | h | h <;>
        exact ⟨not_mem_of_fixed_lower rfl h (by decide),
               not_mem_of_fixed_lower rfl h (by decide)⟩
    have hlast : '/' ∉ fn.data ++ '.' :: ext.data := by
      intro hm
      rcases List.mem_append.mp hm with hm | hm
      · exact hfs hm
      · rcases List.mem_cons.mp hm with hm | hm
        · exact absurd hm (by decide)
        · exact hexts.1 hm
    have hkey : (p1 ++ "/" ++ cid ++ "/" ++ p2 ++ "/" ++ fn ++ "." ++ ext).data =
        p1.data ++ '/' :: (cid.data ++ '/' :: (p2.data ++ '/' :: (fn.data ++ '.' :: ext.data))) := by
      simp [String.data_append, List.append_assoc]
    have hsplit : splitCh '/' (p1 ++ "/" ++ cid ++ "/" ++ p2 ++ "/" ++ fn ++ "." ++ ext).data =
        [p1.data, cid.data, p2.data, fn.data ++ '.' :: ext.data] := by
      rw [hkey, splitCh_sep_append hp1, splitCh_sep_append hcs, splitCh_sep_append hp2,
        splitCh_no_sep hlast]
    unfold generateS3Paths
    rw [hsplit]
    dsimp only
    have hgd : ([p1.data, cid.data, p2.data, fn.data ++ '.' :: ext.data] : List Chars).getD 1
        ("undefined" : String).data = cid.data := rfl
    have hgl : ([p1.data, cid.data, p2.data, fn.data ++ '.' :: ext.data] : List Chars).getLastD
        ("undefined" : String).data = fn.data ++ '.' :: ext.data := rfl
    rw [hgd, hgl, pathParseName_stem_ext hfne hexts.2]
  · intro key hv
    unfold validateS3Key at hv
    unfold specKeyPatternCI
    rcases hsp : splitCh '/' key.data with _ | ⟨a, _ | ⟨b, _ | ⟨c, _ | ⟨d, _ | ⟨x, xs⟩⟩⟩⟩⟩ <;>
      rw [hsp] at hv
    · exact Bool.noConfusion hv
    · exact Bool.noConfusion hv
    · exact Bool.noConfusion hv
    · exact Bool.noConfusion hv
    · simp only [Bool.and_eq_true, decide_eq_true_eq] at hv
      obtain ⟨⟨⟨⟨ha, hb⟩, hball⟩, hc⟩, hd⟩ := hv
      simp only [Bool.and_eq_true, decide_eq_true_eq]
      exact ⟨⟨⟨ha, hb⟩, hc⟩, validLastSeg_to_CI hd⟩
    · exact Bool.noConfusion hv
  · intro env rec hv
    simp [recordStep, hv]

/-- Witness for C9 at a concrete matching key and a concrete rejected
key (parsing recovers both substrings; the rejected record yields no
launch). -/
theorem c9_pattern_roundtrip_witness :
    generateS3Paths "courses/c9/videos/demo.mp4" = ⟨"c9", "demo"⟩
    ∧ recordStep ⟨fun _ _ => true⟩ ⟨"uploads", "not-a-video-key"⟩ = (Except.ok (), []) := by
  refine ⟨?_, c9_pattern_roundtrip.2.2 ⟨fun _ _ => true⟩ ⟨"uploads", "not-a-video-key"⟩ (by decide)⟩
  have h := c9_pattern_roundtrip.1 "courses" "c9" "videos" "demo" "mp4"
    rfl rfl (by decide) (by decide) (by decide) (by decide) (by decide)
  exact h

/-- Oracle for the C9 counterexample: every launch attempt succeeds. -/
def c9LaunchEnv : CEnv := ⟨fun _ _ => true⟩

/-- C9 (counterexample to the claim as stated): the key
`Courses/abc/Videos/def.mp4` does not match the claim's pattern — whose
literal segments are lower case, only the extension being
case-insensitive — yet the validator accepts it (the regex `/i` flag
covers the whole pattern) and an ECS launch is requested for the
record, so "every non-matching key is rejected and no job is created"
is false. -/
theorem c9_case_insensitive_literals :
    specKeyPatternExtCI "Courses/abc/Videos/def.mp4" = false
    ∧ validateS3Key "Courses/abc/Videos/def.mp4" = true
    ∧ recordStep c9LaunchEnv ⟨"uploads", "Courses/abc/Videos/def.mp4"⟩ =
        (Except.ok (), [⟨"uploads", "Courses/abc/Videos/def.mp4"⟩]) := by
  refine ⟨by decide, by decide, by decide⟩

end Claims

end VT
